import Mathlib

/-!
Verification of the voting-automation scripts (`index.js` and the variant
bundled after the Dockerfile).  The JavaScript is embedded shallowly:

* `Math.random()` draws become explicit rational inputs in `[0, 1)`;
* the browser/page behaviour (selector waits resolving, element handles
  being non-null, the confirmation element's computed `display` style)
  becomes per-iteration environment records;
* thrown exceptions become `Except` values, and the in-place mutation of
  the shared `voteLog.votes` array becomes explicit list passing: every
  function returns the ledger it leaves behind, also on the error path,
  exactly as the mutated array survives a thrown exception.
-/

namespace Scraping

/-- JavaScript `randomInterval = (min, max) => Math.floor(Math.random() * (max - min + 1) + min)`
with the `Math.random()` draw `r` made explicit. -/
def randomInterval (r : ℚ) (min max : ℤ) : ℤ :=
  ⌊r * (max - min + 1) + min⌋

/-- One vote record as pushed by `voteLog.votes.push({ buttonId, timestamp })`. -/
structure VoteRec where
  buttonId : String
  timestamp : String
  deriving Repr, DecidableEq

/-- The selector configuration fields read by `voteMultipleTimes`. -/
structure Selectors where
  mainVoteButtonId : String
  alternativeVoteButtonIds : List String
  deriving Repr, DecidableEq

/-- Per-iteration environment: the two `Math.random()` draws and the
observable behaviour of the page during this iteration of the voting loop.
`waitOk` is whether `page.waitForSelector(buttonSelector)` resolves within
its timeout (it throws otherwise); `found` is whether `page.$` returns a
non-null handle; `clickOk` is whether the scroll/click calls resolve;
`confirmOk` is whether `page.$eval(selectors.voteConfirmation, ...)`
resolves (it throws when the confirmation selector matches no element);
`confirmVisible` is the boolean it returns, i.e. whether the computed
`display` style equals `"block"`. -/
structure IterEnv where
  rMain : ℚ
  rAlt : ℚ
  waitOk : Bool
  found : Bool
  clickOk : Bool
  confirmOk : Bool
  confirmVisible : Bool
  timestamp : String
  deriving Repr, DecidableEq

/-- Index into `alternativeVoteButtonIds`:
`Math.floor(Math.random() * selectors.alternativeVoteButtonIds.length)`. -/
def altIndex (r : ℚ) (len : Nat) : Nat :=
  (⌊r * (len : ℚ)⌋).toNat

/-- Target selection of `index.js` lines 86-88: `voteForMain` is
`Math.random() > 0.2` (hard-coded threshold), and otherwise the id is read
at `altIndex` (JavaScript yields `undefined` on an out-of-range read). -/
def chooseButtonId (sel : Selectors) (rMain rAlt : ℚ) : String :=
  if rMain > 1/5 then sel.mainVoteButtonId
  else sel.alternativeVoteButtonIds.getD (altIndex rAlt sel.alternativeVoteButtonIds.length) "undefined"

/-- Target selection of the env-configured variant (lines 115-120 of the
second source file): `mainVotePercentage = CONFIG.voting.mainVotePercentage / 100`
and `voteForMain = Math.random() < mainVotePercentage`. -/
def chooseButtonIdEnv (mainVotePercentage : ℚ) (sel : Selectors) (rMain rAlt : ℚ) : String :=
  if rMain < mainVotePercentage / 100 then sel.mainVoteButtonId
  else sel.alternativeVoteButtonIds.getD (altIndex rAlt sel.alternativeVoteButtonIds.length) "undefined"

/-- Modelled from the spec: section 4.5 step 1 of the specification,
"with configured probability `p` choose the \"main\" target identifier":
the spec-side selection predicate, to be compared with the source-side
`chooseButtonId`.  `p` is the configured main-vote probability and `r` the
uniform draw, so choosing main exactly on `r < p` happens with probability
`p`. -/
def specChoosesMain (p r : ℚ) : Bool :=
  decide (r < p)

/-- One iteration of the body of the `for` loop of `voteMultipleTimes`
(`index.js` lines 84-121).  Returns the ledger after the iteration and
`some errorMessage` when the iteration throws (the exception then aborts
the batch).  Appends `{ buttonId, timestamp }` exactly when the click path
completes and `confirmVisible` is `true`; a null button handle only logs
and skips. -/
def voteIter (sel : Selectors) (e : IterEnv) (log : List VoteRec) :
    List VoteRec × Option String :=
  let buttonId := chooseButtonId sel e.rMain e.rAlt
  if e.waitOk = false then
    (log, some "TimeoutError: waiting for selector failed")
  else if e.found then
    if e.clickOk = false then
      (log, some "Error: click failed")
    else if e.confirmOk = false then
      (log, some "Error: failed to find element matching selector")
    else if e.confirmVisible then
      (log ++ [⟨buttonId, e.timestamp⟩], none)
    else
      (log, none)
  else
    (log, none)

/-- The `for (let i = 0; i < times; i++)` loop of `voteMultipleTimes`,
with `fuel` the number of iterations still to run and `i` the current
index (so `fuel = times - i`).  An iteration error is rethrown
(`Except.error`), aborting the remaining iterations; when all iterations
complete the function returns `true`. -/
def voteLoop (sel : Selectors) (env : Nat → IterEnv) :
    Nat → Nat → List VoteRec → List VoteRec × Except String Bool
  | 0, _, log => (log, Except.ok true)
  | fuel + 1, i, log =>
    match voteIter sel (env i) log with
    | (log', none) => voteLoop sel env fuel (i + 1) log'
    | (log', some msg) => (log', Except.error msg)

/-- Entry point `voteMultipleTimes(page, selectors, times, minDelay, maxDelay, voteLog)`:
runs `times` iterations starting from ledger `log`; the returned list is
the ledger left in `voteLog.votes` (also when an exception aborts the
batch, since the array is mutated in place). -/
def voteMultipleTimes (sel : Selectors) (env : Nat → IterEnv) (times : Nat)
    (log : List VoteRec) : List VoteRec × Except String Bool :=
  voteLoop sel env times 0 log

/-- The loop of `navigateWithRetry` (lines 46-60): `results i` tells
whether the `page.goto` call of attempt index `i` succeeds.  Returns the
value returned by the function (`none` for JavaScript's implicit
`undefined`, reachable only when `retries = 0`) together with the number
of `page.goto` calls made.  `fuel = retries - i`. -/
def navGo (results : Nat → Bool) (retries : Nat) :
    Nat → Nat → Option Bool × Nat
  | 0, i => (none, i)
  | fuel + 1, i =>
    if i < retries then
      if results i then (some true, i + 1)
      else if i < retries - 1 then navGo results retries fuel (i + 1)
      else (some false, i + 1)
    else (none, i)

/-- Entry point `navigateWithRetry(page, url, retries, timeout)`:
attempts are indexed from `0`; the pair is (returned value, attempts made). -/
def navigateWithRetry (results : Nat → Bool) (retries : Nat) : Option Bool × Nat :=
  navGo results retries retries 0

/-- Quota accounting of one outer-loop iteration (`index.js` lines
157-202 and the same shape in the second variant): a failed navigation
`continue`s without touching `totalVotes`; otherwise the `try` block's
outcome decides: `votingSuccessful = true` adds the batch size, a thrown
exception is caught and adds nothing. -/
def outerStep (total : Nat) (navOk : Bool) (batchSize : Nat)
    (batchOutcome : Except String Bool) : Nat :=
  if navOk = false then total
  else
    match batchOutcome with
    | Except.ok true => total + batchSize
    | Except.ok false => total
    | Except.error _ => total

/-- First-match lookup in the association list modelling the plain
JavaScript object `acc` of `saveVoteLog` (`acc[vote.buttonId] || 0`). -/
def lookupCount : List (String × Nat) → String → Nat
  | [], _ => 0
  | p :: rest, k => if p.1 = k then p.2 else lookupCount rest k

/-- One step of the `reduce`:
`acc[vote.buttonId] = (acc[vote.buttonId] || 0) + 1` on a JavaScript
object — an existing key keeps its position, a new key is appended. -/
def bump (acc : List (String × Nat)) (k : String) : List (String × Nat) :=
  if acc.any (fun p => p.1 = k) then
    acc.map (fun p => if p.1 = k then (p.1, p.2 + 1) else p)
  else acc ++ [(k, 1)]

/-- The `voteLog.votes.reduce` accumulation of `saveVoteLog`. -/
def voteCounts (votes : List VoteRec) : List (String × Nat) :=
  votes.foldl (fun acc v => bump acc v.buttonId) []

/-- Sum of all per-candidate counts. -/
def sumCounts (acc : List (String × Nat)) : Nat :=
  (acc.map Prod.snd).sum

/-- Key sequence of the counts object. -/
def keys (acc : List (String × Nat)) : List String :=
  acc.map Prod.fst

/-- The `statistics` object written by `saveVoteLog`. -/
structure Statistics where
  totalVotes : Nat
  votesByCandidate : List (String × Nat)
  deriving Repr, DecidableEq

/-- The `voteLog` object: `{ votes: [...], statistics: {...} }`. -/
structure VoteLog where
  votes : List VoteRec
  statistics : Statistics
  deriving Repr, DecidableEq

/-- Function `saveVoteLog` (lines 130-147): recomputes the statistics from the
vote sequence and writes the whole object; the `votes` array itself is
written unchanged. -/
def saveVoteLog (log : VoteLog) : VoteLog :=
  { log with
    statistics :=
      { totalVotes := log.votes.length
        votesByCandidate := voteCounts log.votes } }

/-- The two termination signals handled by the second source variant. -/
inductive Signal
  | sigint
  | sigterm
  deriving Repr, DecidableEq

/-- Result of the shutdown path: the persisted document and the process
exit code. -/
structure ShutdownResult where
  persisted : VoteLog
  exitCode : Nat
  deriving Repr, DecidableEq

/-- Function `saveAndExit` of the second source variant: `saveVoteLog();
process.exit(0)`. -/
def saveAndExit (log : VoteLog) : ShutdownResult :=
  { persisted := saveVoteLog log, exitCode := 0 }

/-- Registration `process.on('SIGTERM', saveAndExit); process.on('SIGINT', saveAndExit)`:
the handler table maps both signals to the same function. -/
def handleSignal : Signal → VoteLog → ShutdownResult
  | Signal.sigint, log => saveAndExit log
  | Signal.sigterm, log => saveAndExit log

/-- Schedule configuration of the second variant:
`CONFIG.schedule.voteWindow.start`, `.end` and `CONFIG.voting.maxVotes`. -/
structure ScheduleConfig where
  windowStart : Nat
  windowEnd : Nat
  maxVotes : Nat
  deriving Repr, DecidableEq

/-- Function `isWithinVoteWindow` of the second variant:
`currentHour >= start && currentHour < end`. -/
def isWithinVoteWindow (cfg : ScheduleConfig) (currentHour : Nat) : Bool :=
  decide (cfg.windowStart ≤ currentHour ∧ currentHour < cfg.windowEnd)

/-- Environment of one outer-loop iteration of the second variant: the
wall-clock hour read at the top of the iteration, whether navigation
succeeds, and the outcome of the `try` block around the batch. -/
structure SessionEnv where
  hour : Nat
  navOk : Bool
  batchOutcome : Except String Bool
  deriving Repr

/-- One iteration of the second variant's voting loop (lines 204-255):
outside the vote window it sleeps and `continue`s — no browser session is
opened and the state is untouched; inside the window a session is opened
(second component counts opened sessions) and quota accounting follows
`outerStep` with the fixed batch size `votesInThisBatch = 5`. -/
def schedulerStep (cfg : ScheduleConfig) (total sessions : Nat)
    (e : SessionEnv) : Nat × Nat :=
  if isWithinVoteWindow cfg e.hour = false then (total, sessions)
  else (outerStep total e.navOk 5 e.batchOutcome, sessions + 1)

/-- The second variant's `while (totalVotes < CONFIG.voting.maxVotes)`
loop over a trace of per-iteration environments, also counting opened
browser sessions. -/
def schedulerRun (cfg : ScheduleConfig) :
    List SessionEnv → Nat → Nat → Nat × Nat
  | [], total, sessions => (total, sessions)
  | e :: rest, total, sessions =>
    if cfg.maxVotes ≤ total then (total, sessions)
    else
      let p := schedulerStep cfg total sessions e
      schedulerRun cfg rest p.1 p.2

/-- Claim C10: for all integers `min ≤ max` and any `Math.random()` draw
`r ∈ [0, 1)`, `randomInterval r min max` lies in `[min, max]`, and both
endpoints are attained for some value of the random source. -/
theorem randomInterval_range (min max : ℤ) (h : min ≤ max) :
    (∀ r : ℚ, 0 ≤ r → r < 1 →
      min ≤ randomInterval r min max ∧ randomInterval r min max ≤ max)
    ∧ (∃ r : ℚ, 0 ≤ r ∧ r < 1 ∧ randomInterval r min max = min)
    ∧ (∃ r : ℚ, 0 ≤ r ∧ r < 1 ∧ randomInterval r min max = max) := by
  have hspan : (0 : ℚ) < ((max : ℚ) - (min : ℚ) + 1) := by
    have : (min : ℚ) ≤ (max : ℚ) := by exact_mod_cast h
    linarith
  refine ⟨?_, ?_, ?_⟩
  · intro r h0 h1
    constructor
    · rw [randomInterval, Int.le_floor]
      nlinarith
    · rw [randomInterval]
      have hlt : r * ((max : ℚ) - (min : ℚ) + 1) + min < ((max + 1 : ℤ) : ℚ) := by
        push_cast
        nlinarith
      have h2 : ⌊r * ((max : ℚ) - (min : ℚ) + 1) + (min : ℚ)⌋ < max + 1 :=
        Int.floor_lt.mpr hlt
      omega
  · refine ⟨0, le_refl 0, by norm_num, ?_⟩
    rw [randomInterval]
    norm_num
  · refine ⟨((max : ℚ) - (min : ℚ)) / ((max : ℚ) - (min : ℚ) + 1), ?_, ?_, ?_⟩
    · apply div_nonneg
      · have : (min : ℚ) ≤ (max : ℚ) := by exact_mod_cast h
        linarith
      · linarith
    · rw [div_lt_one hspan]
      linarith
    · rw [randomInterval, div_mul_cancel₀ _ (ne_of_gt hspan)]
      have : (max : ℚ) - (min : ℚ) + (min : ℚ) = ((max : ℤ) : ℚ) := by ring
      rw [this, Int.floor_intCast]

/-- Claim C10 witness: concrete instance `min = 3`, `max = 7`, draw `1/2`. -/
theorem randomInterval_range_witness :
    (3 : ℤ) ≤ randomInterval (1/2) 3 7 ∧ randomInterval (1/2) 3 7 ≤ 7 ∧
      randomInterval (1/2) 3 7 = 5 :=
  ⟨((randomInterval_range 3 7 (by norm_num)).1 (1/2) (by norm_num) (by norm_num)).1,
   ((randomInterval_range 3 7 (by norm_num)).1 (1/2) (by norm_num) (by norm_num)).2,
   by norm_num [randomInterval]⟩

/-- An iteration leaves the ledger unchanged or appends exactly the one
record built from the chosen id and this iteration's timestamp. -/
lemma voteIter_log_cases (sel : Selectors) (e : IterEnv) (log : List VoteRec) :
    (voteIter sel e log).1 = log ∨
      (voteIter sel e log).1 =
        log ++ [⟨chooseButtonId sel e.rMain e.rAlt, e.timestamp⟩] := by
  simp only [voteIter]
  split_ifs <;> simp

/-- An iteration grows the ledger by at most one record. -/
lemma voteIter_length_le (sel : Selectors) (e : IterEnv) (log : List VoteRec) :
    (voteIter sel e log).1.length ≤ log.length + 1 := by
  rcases voteIter_log_cases sel e log with h | h <;> rw [h] <;> simp

/-- The loop only ever appends: the initial ledger is a prefix of the
final one, also when an exception aborts the batch. -/
lemma voteLoop_extends (sel : Selectors) (env : Nat → IterEnv) :
    ∀ fuel i log, ∃ tail, (voteLoop sel env fuel i log).1 = log ++ tail := by
  intro fuel
  induction fuel with
  | zero =>
    intro i log
    exact ⟨[], by simp [voteLoop]⟩
  | succ f ih =>
    intro i log
    have hcases := voteIter_log_cases sel (env i) log
    rcases h : voteIter sel (env i) log with ⟨log', err⟩
    rw [h] at hcases
    simp only at hcases
    cases err with
    | none =>
      obtain ⟨t, ht⟩ := ih (i + 1) log'
      have hstep : voteLoop sel env (f + 1) i log = voteLoop sel env f (i + 1) log' := by
        simp [voteLoop, h]
      rw [hstep, ht]
      rcases hcases with hc | hc
      · exact ⟨t, by rw [hc]⟩
      · exact ⟨⟨chooseButtonId sel (env i).rMain (env i).rAlt, (env i).timestamp⟩ :: t,
          by rw [hc, List.append_assoc]; rfl⟩
    | some msg =>
      have hstep : voteLoop sel env (f + 1) i log = (log', Except.error msg) := by
        simp [voteLoop, h]
      rw [hstep]
      rcases hcases with hc | hc
      · exact ⟨[], by simp [hc]⟩
      · exact ⟨[⟨chooseButtonId sel (env i).rMain (env i).rAlt, (env i).timestamp⟩], hc⟩

/-- The loop appends at most one record per remaining iteration. -/
lemma voteLoop_length (sel : Selectors) (env : Nat → IterEnv) :
    ∀ fuel i log, (voteLoop sel env fuel i log).1.length ≤ log.length + fuel := by
  intro fuel
  induction fuel with
  | zero =>
    intro i log
    simp [voteLoop]
  | succ f ih =>
    intro i log
    have hlen := voteIter_length_le sel (env i) log
    rcases h : voteIter sel (env i) log with ⟨log', err⟩
    rw [h] at hlen
    simp only at hlen
    cases err with
    | none =>
      have hstep : voteLoop sel env (f + 1) i log = voteLoop sel env f (i + 1) log' := by
        simp [voteLoop, h]
      rw [hstep]
      calc (voteLoop sel env f (i + 1) log').1.length ≤ log'.length + f := ih (i + 1) log'
        _ ≤ (log.length + 1) + f := by omega
        _ = log.length + (f + 1) := by omega
    | some msg =>
      have hstep : voteLoop sel env (f + 1) i log = (log', Except.error msg) := by
        simp [voteLoop, h]
      rw [hstep]
      simp only
      omega

/-- Claim C1: for every batch size `times`, `voteMultipleTimes` appends at
most `times` records to the ledger — each iteration appends at most one
record, so recorded votes never exceed attempted clicks. -/
theorem voteMultipleTimes_ledger_bound (sel : Selectors) (env : Nat → IterEnv)
    (times : Nat) (log : List VoteRec) :
    (voteMultipleTimes sel env times log).1.length ≤ log.length + times :=
  voteLoop_length sel env times 0 log

/-- Claim C2: an iteration appends the record
`{ buttonId, timestamp }` exactly when the click path completes and the
confirmation element's computed display is `"block"`; a completed click
whose confirmation is not visible appends nothing, raises nothing, and
the loop proceeds to the next iteration. -/
theorem voteIter_confirmation_spec (sel : Selectors) (env : Nat → IterEnv)
    (e : IterEnv) (log : List VoteRec) :
    ((voteIter sel e log).1 =
      if e.waitOk && e.found && e.clickOk && e.confirmOk && e.confirmVisible then
        log ++ [⟨chooseButtonId sel e.rMain e.rAlt, e.timestamp⟩]
      else log)
    ∧ ((voteIter sel e log).1.length = log.length + 1 ↔
        (e.waitOk && e.found && e.clickOk && e.confirmOk && e.confirmVisible) = true)
    ∧ (e.waitOk = true → e.found = true → e.clickOk = true → e.confirmOk = true →
        e.confirmVisible = false → voteIter sel e log = (log, none))
    ∧ (∀ fuel i log₀, (env i).waitOk = true → (env i).found = true →
        (env i).clickOk = true → (env i).confirmOk = true →
        (env i).confirmVisible = false →
        voteLoop sel env (fuel + 1) i log₀ = voteLoop sel env fuel (i + 1) log₀) := by
  refine ⟨?_, ?_, ?_, ?_⟩
  · rcases e with ⟨rM, rA, w, f, c, co, cv, ts⟩
    cases w <;> cases f <;> cases c <;> cases co <;> cases cv <;> simp [voteIter]
  · rcases e with ⟨rM, rA, w, f, c, co, cv, ts⟩
    cases w <;> cases f <;> cases c <;> cases co <;> cases cv <;> simp [voteIter]
  · intro hw hf hc hco hcv
    simp [voteIter, hw, hf, hc, hco, hcv]
  · intro fuel i log₀ hw hf hc hco hcv
    have hiter : voteIter sel (env i) log₀ = (log₀, none) := by
      simp [voteIter, hw, hf, hc, hco, hcv]
    simp [voteLoop, hiter]

/-- Concrete selector set: main id `"M"`, one alternative `"A"`. -/
def cexSel : Selectors := ⟨"M", ["A"]⟩

/-- Concrete selector set with two alternatives. -/
def cexSel2 : Selectors := ⟨"M", ["A", "B"]⟩

/-- A completed click whose confirmation element is not visible. -/
def missEnv : IterEnv := ⟨1, 0, true, true, true, true, false, "t"⟩

/-- A resolved wait whose `page.$` handle is null. -/
def nullEnv : IterEnv := ⟨1, 0, true, false, true, true, true, "t"⟩

/-- A trace whose first iteration times out waiting for the vote button
and whose later iterations would all confirm successfully. -/
def timeoutEnv : Nat → IterEnv := fun i =>
  if i = 0 then ⟨1, 0, false, true, true, true, true, "t0"⟩
  else ⟨1, 0, true, true, true, true, true, "t1"⟩

/-- Claim C2 witness: a concrete completed click with invisible
confirmation appends nothing and raises nothing. -/
theorem voteIter_confirmation_spec_witness :
    voteIter cexSel missEnv [] = ([], none) :=
  (voteIter_confirmation_spec cexSel (fun _ => missEnv) missEnv []).2.2.1
    rfl rfl rfl rfl rfl

/-- Claim C5 counterexample: in a 2-iteration batch whose first iteration
times out waiting for the vote button (`timeoutEnv 0`), the batch aborts
with an error and appends nothing — the iteration is not skipped and
execution does not continue, although iteration 1 alone would have
appended a record.  This refutes "no error raised, execution continues"
for the bounded-wait timeout. -/
theorem voteButton_timeout_cex :
    voteMultipleTimes cexSel timeoutEnv 2 [] =
      ([], Except.error "TimeoutError: waiting for selector failed")
    ∧ voteIter cexSel (timeoutEnv 1) [] = ([⟨"M", "t1"⟩], none) := by
  constructor
  · rfl
  · norm_num [voteIter, chooseButtonId, timeoutEnv, cexSel]

/-- Claim C5 (amended): a resolved wait with a null element handle only
logs and skips — no record, no error, the loop continues with the next
iteration; a wait that does not resolve within its timeout instead
throws, aborting the batch. -/
theorem voteButton_absence_spec (sel : Selectors) (env : Nat → IterEnv) :
    (∀ e log, e.waitOk = true → e.found = false → voteIter sel e log = (log, none))
    ∧ (∀ fuel i log, (env i).waitOk = true → (env i).found = false →
        voteLoop sel env (fuel + 1) i log = voteLoop sel env fuel (i + 1) log)
    ∧ (∀ e log, e.waitOk = false →
        voteIter sel e log = (log, some "TimeoutError: waiting for selector failed")) := by
  refine ⟨?_, ?_, ?_⟩
  · intro e log hw hf
    simp [voteIter, hw, hf]
  · intro fuel i log hw hf
    have hiter : voteIter sel (env i) log = (log, none) := by
      simp [voteIter, hw, hf]
    simp [voteLoop, hiter]
  · intro e log hw
    simp [voteIter, hw]

/-- Claim C5 (amended) witness: a concrete null-handle iteration skips
without a record and without an error. -/
theorem voteButton_absence_spec_witness :
    voteIter cexSel nullEnv [] = ([], none) :=
  (voteButton_absence_spec cexSel (fun _ => nullEnv)).1 nullEnv [] rfl rfl

/-- Claim C7: quota accounting of the outer loop — a successful batch adds
the batch size to the running total, a batch exception or failed
navigation leaves the total unchanged, and whatever the batch outcome the
ledger keeps every record appended before the failure (the initial ledger
is a prefix of the final one). -/
theorem quota_accounting_spec (total batchSize : Nat) :
    outerStep total true batchSize (Except.ok true) = total + batchSize
    ∧ (∀ msg : String, outerStep total true batchSize (Except.error msg) = total)
    ∧ (∀ o : Except String Bool, outerStep total false batchSize o = total)
    ∧ (∀ (sel : Selectors) (env : Nat → IterEnv) (times : Nat) (log : List VoteRec),
        ∃ tail, (voteMultipleTimes sel env times log).1 = log ++ tail) := by
  refine ⟨rfl, fun _ => rfl, fun o => by simp [outerStep], ?_⟩
  intro sel env times log
  exact voteLoop_extends sel env times 0 log

/-- The alternative index is always in range for draws in `[0, 1)`. -/
lemma altIndex_lt (r : ℚ) (L : Nat) (h0 : 0 ≤ r) (h1 : r < 1) (hL : 0 < L) :
    altIndex r L < L := by
  have hLQ : (0 : ℚ) < (L : ℚ) := by exact_mod_cast hL
  have hub : r * (L : ℚ) < ((L : ℤ) : ℚ) := by
    push_cast
    nlinarith
  have hfloor : ⌊r * (L : ℚ)⌋ < (L : ℤ) := Int.floor_lt.mpr hub
  have hnn : 0 ≤ ⌊r * (L : ℚ)⌋ := Int.floor_nonneg.mpr (by positivity)
  unfold altIndex
  omega

/-- Characterisation of the alternative index: the draw interval
`[j/L, (j+1)/L)` maps exactly to index `j` — the `L` indices partition
`[0, 1)` into `L` intervals of equal length `1/L` (uniform choice). -/
lemma altIndex_eq_iff (r : ℚ) (L j : Nat) (h0 : 0 ≤ r) (hL : 0 < L) :
    altIndex r L = j ↔ (j : ℚ) / L ≤ r ∧ r < ((j : ℚ) + 1) / L := by
  have hLQ : (0 : ℚ) < (L : ℚ) := by exact_mod_cast hL
  have hnn : 0 ≤ ⌊r * (L : ℚ)⌋ := Int.floor_nonneg.mpr (by positivity)
  have h1 : altIndex r L = j ↔ ⌊r * (L : ℚ)⌋ = (j : ℤ) := by
    unfold altIndex
    omega
  rw [h1, Int.floor_eq_iff]
  constructor
  · rintro ⟨ha, hb⟩
    constructor
    · rw [div_le_iff₀ hLQ]
      exact_mod_cast ha
    · rw [lt_div_iff₀ hLQ]
      push_cast at hb ⊢
      linarith
  · rintro ⟨ha, hb⟩
    constructor
    · rw [div_le_iff₀ hLQ] at ha
      exact_mod_cast ha
    · rw [lt_div_iff₀ hLQ] at hb
      push_cast
      linarith

/-- Claim C4 counterexample: with the main-vote probability configured as
`p = 1/2` (i.e. `mainVotePercentage = 50`) the spec-side rule picks the
main target at draw `1/10`, but `index.js`'s selection — hard-coded
`Math.random() > 0.2`, ignoring the settings object — picks the
alternative `"A"` instead of main `"M"` at that same draw. -/
theorem mainChoice_config_cex :
    specChoosesMain (1/2) (1/10) = true
    ∧ cexSel.mainVoteButtonId = "M"
    ∧ chooseButtonId cexSel (1/10) 0 = "A" := by
  refine ⟨?_, rfl, ?_⟩
  · simp only [specChoosesMain, decide_eq_true_eq]
    norm_num
  · norm_num [chooseButtonId, altIndex, cexSel]

/-- Claim C4 (amended): in `index.js` the main target is chosen exactly on
draws above the fixed threshold `1/5` (so with probability 4/5, whatever
the configuration); in the env-configured variant it is chosen exactly on
draws below `mainVotePercentage / 100` (so with the configured
probability); in both, when main is not chosen the target comes from the
alternative list, whose index partitions the draw interval `[0, 1)` into
equal parts (uniform). -/
theorem targetChoice_spec (sel : Selectors) (p rMain rAlt : ℚ)
    (h0 : 0 ≤ rAlt) (h1 : rAlt < 1)
    (hne : sel.alternativeVoteButtonIds ≠ [])
    (hmain : sel.mainVoteButtonId ∉ sel.alternativeVoteButtonIds) :
    (chooseButtonId sel rMain rAlt = sel.mainVoteButtonId ↔ 1/5 < rMain)
    ∧ (chooseButtonIdEnv p sel rMain rAlt = sel.mainVoteButtonId ↔ rMain < p / 100)
    ∧ (∀ j : Nat,
        altIndex rAlt sel.alternativeVoteButtonIds.length = j ↔
          (j : ℚ) / sel.alternativeVoteButtonIds.length ≤ rAlt ∧
            rAlt < ((j : ℚ) + 1) / sel.alternativeVoteButtonIds.length) := by
  have hL : 0 < sel.alternativeVoteButtonIds.length := List.length_pos.mpr hne
  have hidx : altIndex rAlt sel.alternativeVoteButtonIds.length <
      sel.alternativeVoteButtonIds.length := altIndex_lt rAlt _ h0 h1 hL
  have hgetD : sel.alternativeVoteButtonIds.getD
      (altIndex rAlt sel.alternativeVoteButtonIds.length) "undefined" ∈
      sel.alternativeVoteButtonIds := by
    rw [List.getD_eq_getElem sel.alternativeVoteButtonIds "undefined" hidx]
    exact List.getElem_mem hidx
  refine ⟨?_, ?_, fun j => altIndex_eq_iff rAlt _ j h0 hL⟩
  · unfold chooseButtonId
    split_ifs with hr
    · exact ⟨fun _ => hr, fun _ => rfl⟩
    · simp only [gt_iff_lt, not_lt] at hr
      constructor
      · intro heq
        exact absurd (heq ▸ hgetD) hmain
      · intro hlt
        exact absurd (lt_of_lt_of_le hlt hr) (lt_irrefl _)
  · unfold chooseButtonIdEnv
    split_ifs with hr
    · exact ⟨fun _ => hr, fun _ => rfl⟩
    · constructor
      · intro heq
        exact absurd (heq ▸ hgetD) hmain
      · intro hlt
        exact absurd hlt hr

/-- Claim C4 (amended) witness: configured `mainVotePercentage = 50`, the
env-configured variant picks main at draw `1/10 < 50/100`. -/
theorem targetChoice_spec_witness :
    chooseButtonIdEnv 50 cexSel2 (1/10) (1/2) = "M" :=
  ((targetChoice_spec cexSel2 50 (1/10) (1/2) (by norm_num) (by norm_num)
      (by simp [cexSel2]) (by decide)).2.1).mpr (by norm_num)

/-- Claim C3: with `maxAttempts = 3`, `navigateWithRetry` returns `true` as
soon as the first successful attempt occurs (making exactly that many
`page.goto` calls), returns `false` after 3 failing attempts without a 4th
call and without raising, and never makes more than 3 attempts. -/
theorem navigateWithRetry_spec (results : Nat → Bool) :
    (∀ i, i < 3 → results i = true → (∀ j, j < i → results j = false) →
      navigateWithRetry results 3 = (some true, i + 1))
    ∧ ((∀ i, i < 3 → results i = false) → navigateWithRetry results 3 = (some false, 3))
    ∧ (navigateWithRetry results 3).2 ≤ 3 := by
  refine ⟨?_, ?_, ?_⟩
  · intro i hi hsucc hprev
    interval_cases i
    · simp [navigateWithRetry, navGo, hsucc]
    · have h0 : results 0 = false := hprev 0 (by norm_num)
      simp [navigateWithRetry, navGo, h0, hsucc]
    · have h0 : results 0 = false := hprev 0 (by norm_num)
      have h1 : results 1 = false := hprev 1 (by norm_num)
      simp [navigateWithRetry, navGo, h0, h1, hsucc]
  · intro hall
    have h0 : results 0 = false := hall 0 (by norm_num)
    have h1 : results 1 = false := hall 1 (by norm_num)
    have h2 : results 2 = false := hall 2 (by norm_num)
    simp [navigateWithRetry, navGo, h0, h1, h2]
  · cases h0 : results 0 <;> cases h1 : results 1 <;> cases h2 : results 2 <;>
      simp [navigateWithRetry, navGo, h0, h1, h2]

/-- Claim C3 witness: attempts 1 and 2 fail, attempt 3 succeeds — the call
returns `true` with exactly 3 attempts made. -/
theorem navigateWithRetry_spec_witness :
    navigateWithRetry (fun i => decide (i = 2)) 3 = (some true, 3) :=
  (navigateWithRetry_spec (fun i => decide (i = 2))).1 2 (by norm_num) (by decide)
    (fun j hj => by interval_cases j <;> rfl)

/-- Multiplicity of a target identifier in a record sequence. -/
def countId (votes : List VoteRec) (k : String) : Nat :=
  (votes.map VoteRec.buttonId).count k

/-- A key that matches no entry looks up to `0`. -/
lemma lookupCount_eq_zero (acc : List (String × Nat)) (k : String)
    (h : acc.any (fun p => p.1 = k) = false) : lookupCount acc k = 0 := by
  induction acc with
  | nil => rfl
  | cons p rest ih =>
    simp only [List.any_cons, Bool.or_eq_false_iff, decide_eq_false_iff_not] at h
    simp [lookupCount, h.1, ih h.2]

/-- Incrementing an existing key raises its looked-up count by one. -/
lemma lookupCount_map_self (acc : List (String × Nat)) (k : String)
    (h : acc.any (fun p => p.1 = k) = true) :
    lookupCount (acc.map (fun p => if p.1 = k then (p.1, p.2 + 1) else p)) k =
      lookupCount acc k + 1 := by
  induction acc with
  | nil => simp at h
  | cons p rest ih =>
    by_cases hp : p.1 = k
    · simp [lookupCount, hp]
    · have hrest : rest.any (fun p => p.1 = k) = true := by
        simp only [List.any_cons, Bool.or_eq_true, decide_eq_true_eq] at h
        rcases h with h | h
        · exact absurd h hp
        · simpa using h
      simp [lookupCount, hp, ih hrest]

/-- Incrementing key `k` does not change the count of a different key. -/
lemma lookupCount_map_other (acc : List (String × Nat)) (k k' : String)
    (hne : k' ≠ k) :
    lookupCount (acc.map (fun p => if p.1 = k then (p.1, p.2 + 1) else p)) k' =
      lookupCount acc k' := by
  induction acc with
  | nil => rfl
  | cons p rest ih =>
    by_cases hp : p.1 = k
    · simp [lookupCount, hp, Ne.symm hne, ih]
    · by_cases hq : p.1 = k'
      · simp [lookupCount, hp, hq, hne]
      · simp [lookupCount, hp, hq, ih]

/-- Appending a fresh key `(k, 1)` does not change a different key's count. -/
lemma lookupCount_append_other (acc : List (String × Nat)) (k k' : String)
    (hne : k' ≠ k) :
    lookupCount (acc ++ [(k, 1)]) k' = lookupCount acc k' := by
  induction acc with
  | nil => simp [lookupCount, Ne.symm hne]
  | cons p rest ih =>
    by_cases hq : p.1 = k'
    · simp [lookupCount, hq]
    · simp [lookupCount, hq, ih]

/-- Appending a fresh key `(k, 1)` makes `k` look up to `1`. -/
lemma lookupCount_append_self (acc : List (String × Nat)) (k : String)
    (h : acc.any (fun p => p.1 = k) = false) :
    lookupCount (acc ++ [(k, 1)]) k = 1 := by
  induction acc with
  | nil => simp [lookupCount]
  | cons p rest ih =>
    simp only [List.any_cons, Bool.or_eq_false_iff, decide_eq_false_iff_not] at h
    simp [lookupCount, h.1, ih h.2]

/-- Applying `bump` raises the bumped key's count by exactly one. -/
lemma lookupCount_bump_self (acc : List (String × Nat)) (k : String) :
    lookupCount (bump acc k) k = lookupCount acc k + 1 := by
  unfold bump
  by_cases hany : acc.any (fun p => p.1 = k) = true
  · rw [if_pos hany]
    exact lookupCount_map_self acc k hany
  · have hfalse : acc.any (fun p => p.1 = k) = false := by
      cases h : acc.any (fun p => p.1 = k) with
      | true => exact absurd h hany
      | false => rfl
    rw [if_neg hany]
    rw [lookupCount_append_self acc k hfalse, lookupCount_eq_zero acc k hfalse]

/-- Applying `bump` leaves every other key's count unchanged. -/
lemma lookupCount_bump_other (acc : List (String × Nat)) (k k' : String)
    (hne : k' ≠ k) : lookupCount (bump acc k) k' = lookupCount acc k' := by
  unfold bump
  by_cases hany : acc.any (fun p => p.1 = k) = true
  · rw [if_pos hany]
    exact lookupCount_map_other acc k k' hne
  · rw [if_neg hany]
    exact lookupCount_append_other acc k k' hne

/-- A key occurs in the object exactly when some entry matches it. -/
lemma any_eq_true_iff_mem_keys (acc : List (String × Nat)) (k : String) :
    acc.any (fun p => p.1 = k) = true ↔ k ∈ keys acc := by
  simp only [List.any_eq_true, decide_eq_true_eq, keys, List.mem_map]

/-- The in-place increment keeps the key sequence unchanged. -/
lemma keys_map_bump (acc : List (String × Nat)) (k : String) :
    keys (acc.map (fun p => if p.1 = k then (p.1, p.2 + 1) else p)) = keys acc := by
  induction acc with
  | nil => rfl
  | cons p rest ih =>
    by_cases hp : p.1 = k
    · simp [keys, hp] at ih ⊢
      simpa [keys] using ih
    · simp [keys, hp] at ih ⊢
      simpa [keys] using ih

/-- Key sequence after a `bump`: unchanged for an existing key, the new
key appended otherwise. -/
lemma keys_bump (acc : List (String × Nat)) (k : String) :
    keys (bump acc k) =
      if acc.any (fun p => p.1 = k) then keys acc else keys acc ++ [k] := by
  unfold bump
  by_cases hany : acc.any (fun p => p.1 = k) = true
  · rw [if_pos hany, if_pos hany]
    exact keys_map_bump acc k
  · rw [if_neg hany, if_neg hany]
    simp [keys]

/-- Membership in the keys after a `bump`. -/
lemma mem_keys_bump (acc : List (String × Nat)) (k0 k : String) :
    k ∈ keys (bump acc k0) ↔ k ∈ keys acc ∨ k = k0 := by
  rw [keys_bump]
  by_cases hany : acc.any (fun p => p.1 = k0) = true
  · rw [if_pos hany]
    constructor
    · exact Or.inl
    · rintro (h | h)
      · exact h
      · exact h ▸ (any_eq_true_iff_mem_keys acc k0).mp hany
  · rw [if_neg hany]
    simp

/-- Applying `bump` preserves key uniqueness. -/
lemma keys_bump_nodup (acc : List (String × Nat)) (k : String)
    (h : (keys acc).Nodup) : (keys (bump acc k)).Nodup := by
  rw [keys_bump]
  by_cases hany : acc.any (fun p => p.1 = k) = true
  · rw [if_pos hany]
    exact h
  · have hnotmem : k ∉ keys acc := fun hmem =>
      hany ((any_eq_true_iff_mem_keys acc k).mpr hmem)
    rw [if_neg hany]
    simp [List.nodup_append, h, hnotmem]

/-- Entries whose key is not `k` are untouched by the in-place increment. -/
lemma map_bump_eq_self (rest : List (String × Nat)) (k : String)
    (h : ∀ q ∈ rest, q.1 ≠ k) :
    rest.map (fun p => if p.1 = k then (p.1, p.2 + 1) else p) = rest := by
  induction rest with
  | nil => rfl
  | cons q rest ih =>
    have hq : q.1 ≠ k := h q (List.mem_cons_self q rest)
    simp only [List.map_cons, if_neg hq]
    rw [ih (fun q hq => h q (List.mem_cons_of_mem _ hq))]

/-- With unique keys, the in-place increment raises the total by one. -/
lemma sumCounts_map_bump (acc : List (String × Nat)) (k : String)
    (hnd : (keys acc).Nodup) (h : acc.any (fun p => p.1 = k) = true) :
    sumCounts (acc.map (fun p => if p.1 = k then (p.1, p.2 + 1) else p)) =
      sumCounts acc + 1 := by
  induction acc with
  | nil => simp at h
  | cons p rest ih =>
    simp only [keys, List.map_cons, List.nodup_cons] at hnd
    by_cases hp : p.1 = k
    · have hrest : ∀ q ∈ rest, q.1 ≠ k := by
        intro q hq hqk
        apply hnd.1
        have hmem : q.1 ∈ List.map Prod.fst rest := List.mem_map_of_mem Prod.fst hq
        rw [hp, ← hqk]
        exact hmem
      rw [List.map_cons, if_pos hp, map_bump_eq_self rest k hrest]
      simp only [sumCounts, List.map_cons, List.sum_cons]
      omega
    · have hrest : rest.any (fun p => p.1 = k) = true := by
        simp only [List.any_cons, Bool.or_eq_true, decide_eq_true_eq] at h
        rcases h with h | h
        · exact absurd h hp
        · simpa using h
      rw [List.map_cons, if_neg hp]
      have hih := ih hnd.2 hrest
      simp only [sumCounts, List.map_cons, List.sum_cons] at hih ⊢
      omega

/-- With unique keys, one `bump` raises the total count by one. -/
lemma sumCounts_bump (acc : List (String × Nat)) (k : String)
    (hnd : (keys acc).Nodup) : sumCounts (bump acc k) = sumCounts acc + 1 := by
  unfold bump
  by_cases hany : acc.any (fun p => p.1 = k) = true
  · rw [if_pos hany]
    exact sumCounts_map_bump acc k hnd hany
  · rw [if_neg hany]
    simp [sumCounts]

/-- Invariant of the `reduce` of `saveVoteLog`, generalised over the
accumulator: key uniqueness is preserved, every key's count grows by that
key's multiplicity among the processed records, the total grows by the
number of processed records, and the final keys are the initial ones plus
the identifiers that occur in the records. -/
lemma voteCounts_fold_spec (votes : List VoteRec) :
    ∀ acc, (keys acc).Nodup →
      (keys (votes.foldl (fun a v => bump a v.buttonId) acc)).Nodup
      ∧ (∀ k, lookupCount (votes.foldl (fun a v => bump a v.buttonId) acc) k =
          lookupCount acc k + countId votes k)
      ∧ sumCounts (votes.foldl (fun a v => bump a v.buttonId) acc) =
          sumCounts acc + votes.length
      ∧ (∀ k, k ∈ keys (votes.foldl (fun a v => bump a v.buttonId) acc) ↔
          k ∈ keys acc ∨ k ∈ votes.map VoteRec.buttonId) := by
  induction votes with
  | nil =>
    intro acc hnd
    refine ⟨hnd, fun k => ?_, by simp, fun k => by simp⟩
    simp [countId]
  | cons v rest ih =>
    intro acc hnd
    have hnd' : (keys (bump acc v.buttonId)).Nodup := keys_bump_nodup acc v.buttonId hnd
    obtain ⟨ihnd, ihcount, ihsum, ihmem⟩ := ih (bump acc v.buttonId) hnd'
    have hstep : (v :: rest).foldl (fun a v => bump a v.buttonId) acc =
        rest.foldl (fun a v => bump a v.buttonId) (bump acc v.buttonId) := rfl
    refine ⟨by simpa using ihnd, fun k => ?_, ?_, fun k => ?_⟩
    · rw [hstep, ihcount k]
      by_cases hk : k = v.buttonId
      · rw [hk, lookupCount_bump_self acc v.buttonId]
        have hcnt : countId (v :: rest) v.buttonId = countId rest v.buttonId + 1 := by
          simp [countId, List.count_cons]
        rw [hcnt]
        omega
      · rw [lookupCount_bump_other acc v.buttonId k hk]
        have hcnt : countId (v :: rest) k = countId rest k := by
          simp [countId, List.count_cons, hk]
        rw [hcnt]
    · rw [hstep, ihsum, sumCounts_bump acc v.buttonId hnd]
      simp only [List.length_cons]
      omega
    · rw [hstep, ihmem k, mem_keys_bump acc v.buttonId k]
      simp only [List.map_cons, List.mem_cons]
      tauto

/-- Claim C8: for every ledger, the summary derived by `saveVoteLog`
before persistence has `totalVotes` equal to the number of records, per-
target counts that are exactly the multiplicities of each identifier in
the record sequence (with one entry per occurring identifier and no
others), counts summing to the record count — and the record sequence
itself is written unchanged. -/
theorem saveVoteLog_spec (log : VoteLog) :
    (saveVoteLog log).votes = log.votes
    ∧ (saveVoteLog log).statistics.totalVotes = log.votes.length
    ∧ (∀ k, lookupCount (saveVoteLog log).statistics.votesByCandidate k =
        countId log.votes k)
    ∧ sumCounts (saveVoteLog log).statistics.votesByCandidate = log.votes.length
    ∧ (∀ k, k ∈ keys (saveVoteLog log).statistics.votesByCandidate ↔
        k ∈ log.votes.map VoteRec.buttonId)
    ∧ (keys (saveVoteLog log).statistics.votesByCandidate).Nodup := by
  obtain ⟨hnd, hcount, hsum, hmem⟩ :=
    voteCounts_fold_spec log.votes [] (by simp [keys])
  refine ⟨rfl, rfl, fun k => ?_, ?_, fun k => ?_, ?_⟩
  · simpa [saveVoteLog, voteCounts, lookupCount] using hcount k
  · simpa [saveVoteLog, voteCounts, sumCounts] using hsum
  · simpa [saveVoteLog, voteCounts, keys] using hmem k
  · simpa [saveVoteLog, voteCounts] using hnd

/-- Claim C6: both termination signals dispatch to the same
graceful-shutdown path, which persists the ledger with whatever records it
holds, together with a correct derived summary, and exits with status 0. -/
theorem signals_graceful_shutdown (log : VoteLog) :
    handleSignal Signal.sigint log = handleSignal Signal.sigterm log
    ∧ (∀ s, handleSignal s log = saveAndExit log)
    ∧ (∀ s, (handleSignal s log).exitCode = 0)
    ∧ (∀ s, (handleSignal s log).persisted.votes = log.votes)
    ∧ (∀ s, (handleSignal s log).persisted.statistics.totalVotes = log.votes.length)
    ∧ (∀ s, sumCounts (handleSignal s log).persisted.statistics.votesByCandidate =
        log.votes.length)
    ∧ (∀ s k, lookupCount (handleSignal s log).persisted.statistics.votesByCandidate k =
        countId log.votes k) := by
  have hdispatch : ∀ s, handleSignal s log = saveAndExit log := by
    intro s
    cases s <;> rfl
  obtain ⟨_, hcount, hsum, _⟩ := voteCounts_fold_spec log.votes [] (by simp [keys])
  refine ⟨rfl, hdispatch, fun s => by rw [hdispatch s]; rfl,
    fun s => by rw [hdispatch s]; rfl, fun s => by rw [hdispatch s]; rfl,
    fun s => ?_, fun s k => ?_⟩
  · rw [hdispatch s]
    simpa [saveAndExit, saveVoteLog, voteCounts, sumCounts] using hsum
  · rw [hdispatch s]
    simpa [saveAndExit, saveVoteLog, voteCounts, lookupCount] using hcount k

/-- Claim C9: an iteration whose current hour lies outside the configured
window `[start, end)` opens no browser session and leaves the loop state
untouched (it sleeps and rechecks); a session is opened exactly when
`start ≤ hour < end`, and over any trace the number of opened sessions is
bounded by the number of in-window instants. -/
theorem voteWindow_gating (cfg : ScheduleConfig) :
    (∀ total sessions e, isWithinVoteWindow cfg e.hour = false →
      schedulerStep cfg total sessions e = (total, sessions))
    ∧ (∀ total sessions e,
        (schedulerStep cfg total sessions e).2 = sessions + 1 ↔
          isWithinVoteWindow cfg e.hour = true)
    ∧ (∀ envs total sessions,
        (schedulerRun cfg envs total sessions).2 ≤
          sessions + (envs.filter (fun e => isWithinVoteWindow cfg e.hour)).length)
    ∧ (∀ h : Nat, isWithinVoteWindow cfg h = true ↔
        cfg.windowStart ≤ h ∧ h < cfg.windowEnd) := by
  have hstep_out : ∀ total sessions e, isWithinVoteWindow cfg e.hour = false →
      schedulerStep cfg total sessions e = (total, sessions) := by
    intro total sessions e h
    simp [schedulerStep, h]
  have hstep_in : ∀ total sessions e, isWithinVoteWindow cfg e.hour = true →
      (schedulerStep cfg total sessions e).2 = sessions + 1 := by
    intro total sessions e h
    simp [schedulerStep, h]
  refine ⟨hstep_out, ?_, ?_, ?_⟩
  · intro total sessions e
    constructor
    · intro hs
      cases hw : isWithinVoteWindow cfg e.hour with
      | true => rfl
      | false =>
        rw [hstep_out total sessions e hw] at hs
        simp at hs
    · exact hstep_in total sessions e
  · intro envs
    induction envs with
    | nil =>
      intro total sessions
      simp [schedulerRun]
    | cons e rest ih =>
      intro total sessions
      by_cases hmax : cfg.maxVotes ≤ total
      · rw [schedulerRun, if_pos hmax]
        simp only
        omega
      · rw [schedulerRun, if_neg hmax]
        cases hw : isWithinVoteWindow cfg e.hour with
        | false =>
          rw [hstep_out total sessions e hw]
          have := ih total sessions
          simp only [List.filter_cons, hw]
          exact this
        | true =>
          have h2 : (schedulerStep cfg total sessions e).2 = sessions + 1 :=
            hstep_in total sessions e hw
          show (schedulerRun cfg rest (schedulerStep cfg total sessions e).1
              (schedulerStep cfg total sessions e).2).2 ≤
            sessions + (List.filter (fun e => isWithinVoteWindow cfg e.hour) (e :: rest)).length
          rw [h2]
          have hrun := ih (schedulerStep cfg total sessions e).1 (sessions + 1)
          simp [List.filter_cons, hw]
          omega
  · intro h
    simp [isWithinVoteWindow]

/-- Claim C9 witness: window `[8, 20)`, current hour 22 — the step opens
no session and leaves the totals unchanged. -/
theorem voteWindow_gating_witness :
    schedulerStep ⟨8, 20, 100⟩ 0 0 ⟨22, true, Except.ok true⟩ = (0, 0) :=
  (voteWindow_gating ⟨8, 20, 100⟩).1 0 0 ⟨22, true, Except.ok true⟩ (by decide)

end Scraping
